import Mathlib

/-!
Shallow embedding of the dense-matrix library in
`src/templates/c/matrix_operations.c`, together with theorems settling the
spec's claims against it.

Modelling conventions:
* C `int` fields (`rows`, `cols`, loop bounds) become `Int`; array indices
  become `Nat`.  A C loop `for (i = 0; i < n; i++)` with `int n` runs over the
  indices `i` with `i < n.toNat`.
* C `double` values are modelled as rationals `ℚ` (every finite double is a
  rational number; all arithmetic exercised by the claims is exact).
* The backing store `double data[MAX][MAX]` of a `Matrix` is modelled as a
  total function `Nat → Nat → ℚ`: reads outside the logical
  `[0,rows) × [0,cols)` region are well defined in the model and return
  whatever the store holds there, exactly as the C code reads whatever bytes
  sit in the fixed-capacity array.
* A freshly declared C local `Matrix m` is uninitialized; functions that
  declare one therefore take an extra parameter `g : Nat → Nat → ℚ` standing
  for the indeterminate initial contents of that local's backing array.
-/

namespace MatrixOps

/-- The fixed maximum dimension, `#define MAX 10` (matrix_operations.c:11). -/
def MAX : Int := 10

/-- Embedding of the C struct `Matrix` (matrix_operations.c:13-16): a shape
`rows × cols` plus the full backing store. -/
structure Matrix where
  rows : Int
  cols : Int
  data : Nat → Nat → ℚ

/-- Embedding of `create_matrix` (matrix_operations.c:18-26).  The nested
loops zero exactly the cells with `i < rows` and `j < cols`; every other cell
of the uninitialized local keeps its indeterminate content `g i j`.  No bounds
check of any kind is performed on `rows` or `cols`. -/
def create_matrix (g : Nat → Nat → ℚ) (rows cols : Int) : Matrix :=
  Matrix.mk rows cols (fun i j =>
    if i < rows.toNat ∧ j < cols.toNat then 0 else g i j)

/-- Embedding of `add` (matrix_operations.c:39-45).  The result is
`create_matrix(a->rows, a->cols)` and the loops run over `a`'s shape only;
`b.data` is read at those same indices whether or not they lie inside `b`'s
logical region.  No shape check is performed. -/
def add (g : Nat → Nat → ℚ) (a b : Matrix) : Matrix :=
  let result := create_matrix g a.rows a.cols
  Matrix.mk result.rows result.cols (fun i j =>
    if i < a.rows.toNat ∧ j < a.cols.toNat then a.data i j + b.data i j
    else result.data i j)

/-- Embedding of `subtract` (matrix_operations.c:47-53), identical to `add`
with `-` in place of `+`. -/
def subtract (g : Nat → Nat → ℚ) (a b : Matrix) : Matrix :=
  let result := create_matrix g a.rows a.cols
  Matrix.mk result.rows result.cols (fun i j =>
    if i < a.rows.toNat ∧ j < a.cols.toNat then a.data i j - b.data i j
    else result.data i j)

/-- Embedding of `multiply` (matrix_operations.c:55-62).  The result is
`create_matrix(a->rows, b->cols)`; each cell `(i,j)` of the result accumulates
`a.data i k * b.data k j` for `k` ascending over `[0, a.cols)` starting from
the zero that `create_matrix` left there (`result.data[i][j] += ...`).
`b.data` is read at row indices up to `a.cols`, whether or not they lie inside
`b`'s logical region.  No shape check is performed. -/
def multiply (g : Nat → Nat → ℚ) (a b : Matrix) : Matrix :=
  let result := create_matrix g a.rows b.cols
  Matrix.mk result.rows result.cols (fun i j =>
    if i < a.rows.toNat ∧ j < b.cols.toNat then
      (List.range a.cols.toNat).foldl
        (fun acc k => acc + a.data i k * b.data k j) (result.data i j)
    else result.data i j)

/-- Embedding of `transpose` (matrix_operations.c:64-70): result shape
`m.cols × m.rows`, and `result.data[j][i] = m.data[i][j]` for every `(i,j)` in
`m`'s logical region. -/
def transpose (g : Nat → Nat → ℚ) (m : Matrix) : Matrix :=
  let result := create_matrix g m.cols m.rows
  Matrix.mk result.rows result.cols (fun i j =>
    if i < m.cols.toNat ∧ j < m.rows.toNat then m.data j i
    else result.data i j)

/-- Embedding of `scalar_multiply` (matrix_operations.c:72-78). -/
def scalar_multiply (g : Nat → Nat → ℚ) (m : Matrix) (scalar : ℚ) : Matrix :=
  let result := create_matrix g m.rows m.cols
  Matrix.mk result.rows result.cols (fun i j =>
    if i < m.rows.toNat ∧ j < m.cols.toNat then m.data i j * scalar
    else result.data i j)

/-- Embedding of `determinant_2x2` (matrix_operations.c:80-82): reads the four
cells `[0][0], [1][1], [0][1], [1][0]` unconditionally, with no check that the
matrix is 2×2. -/
def determinant_2x2 (m : Matrix) : ℚ :=
  m.data 0 0 * m.data 1 1 - m.data 0 1 * m.data 1 0

/-- Embedding of `trace` (matrix_operations.c:84-90): sums `m.data[i][i]` for
`i` below `min(m.rows, m.cols)`, accumulating into `sum = 0`. -/
def trace (m : Matrix) : ℚ :=
  (List.range (min m.rows m.cols).toNat).foldl (fun sum i => sum + m.data i i) 0

/-- Embedding of `is_symmetric` (matrix_operations.c:92-98): `false` at once
when `rows != cols`, otherwise `true` unless some cell of the logical region
has `|m.data[i][j] - m.data[j][i]| > 1e-9`. -/
def is_symmetric (m : Matrix) : Bool :=
  if m.rows ≠ m.cols then false
  else (List.range m.rows.toNat).all (fun i =>
    (List.range m.cols.toNat).all (fun j =>
      decide (|m.data i j - m.data j i| ≤ 1 / 1000000000)))

/-- Embedding of `identity` (matrix_operations.c:100-105): `create_matrix(n,n)`
followed by writing `1.0` at `data[i][i]` for `i < n`. -/
def identity (g : Nat → Nat → ℚ) (n : Int) : Matrix :=
  let m := create_matrix g n n
  Matrix.mk m.rows m.cols (fun i j =>
    if i = j ∧ i < n.toNat then 1 else m.data i j)

/-- Logical equality of matrices: same shape and the same entries on the whole
logical region `[0,rows) × [0,cols)`.  This is the reading of `==` in the
spec's algebraic properties: per the spec's data model, entries outside the
logical region are ignored. -/
def Matrix.Equiv (a b : Matrix) : Prop :=
  a.rows = b.rows ∧ a.cols = b.cols ∧
    ∀ i j, i < a.rows.toNat → j < a.cols.toNat → a.data i j = b.data i j

/-- Accumulating `acc + f k` over `List.range n` computes `x` plus the sum of
`f` over `[0, n)`. -/
lemma foldl_add_range (f : Nat → ℚ) (x : ℚ) (n : Nat) :
    (List.range n).foldl (fun acc k => acc + f k) x =
      x + ∑ k in Finset.range n, f k := by
  induction n generalizing x with
  | zero => simp
  | succ n ih =>
    rw [List.range_succ, List.foldl_append, ih, Finset.sum_range_succ]
    simp [add_assoc]

/-- Inside the logical region, a freshly created matrix holds zeros. -/
lemma create_matrix_data_in (g : Nat → Nat → ℚ) (rows cols : Int) (i j : Nat)
    (hi : i < rows.toNat) (hj : j < cols.toNat) :
    (create_matrix g rows cols).data i j = 0 := by
  show (if i < rows.toNat ∧ j < cols.toNat then (0 : ℚ) else g i j) = 0
  exact if_pos (And.intro hi hj)

/-- Inside the result's logical region, `multiply` computes the dot product of
row `i` of `a` with column `j` of `b`, the inner index running over
`[0, a.cols)`. -/
lemma multiply_data_in (g : Nat → Nat → ℚ) (a b : Matrix) (i j : Nat)
    (hi : i < a.rows.toNat) (hj : j < b.cols.toNat) :
    (multiply g a b).data i j =
      ∑ k in Finset.range a.cols.toNat, a.data i k * b.data k j := by
  simp only [multiply, if_pos (And.intro hi hj)]
  rw [create_matrix_data_in g a.rows b.cols i j hi hj,
    foldl_add_range (fun k => a.data i k * b.data k j) 0 a.cols.toNat, zero_add]

/-- Inside the logical region, `identity g n` is the Kronecker delta. -/
lemma identity_data_in (g : Nat → Nat → ℚ) (n : Int) (i j : Nat)
    (hi : i < n.toNat) (hj : j < n.toNat) :
    (identity g n).data i j = if i = j then 1 else 0 := by
  show (if i = j ∧ i < n.toNat then (1 : ℚ)
      else (create_matrix g n n).data i j) = if i = j then 1 else 0
  by_cases h : i = j
  · rw [if_pos (And.intro h hi), if_pos h]
  · rw [if_neg (fun hc => h hc.1), if_neg h,
      create_matrix_data_in g n n i j hi hj]

/-- All-zero stand-in used to instantiate the indeterminate-store parameter
`g` in concrete evaluations. -/
def zeroStore : Nat → Nat → ℚ := fun _ _ => 0

/-- A 2×3 matrix whose logical entries are all `1`; backing store `0`
elsewhere. -/
def sampleA23 : Matrix := Matrix.mk 2 3 (fun i j => if i < 2 ∧ j < 3 then 1 else 0)

/-- A 2×3 matrix whose logical entries are all `1` and whose backing store
holds `7` outside the logical region — concrete garbage left in the
fixed-capacity array. -/
def sampleB23 : Matrix := Matrix.mk 2 3 (fun i j => if i < 2 ∧ j < 3 then 1 else 7)

/-- A 3×3 matrix whose logical entries are all `1`. -/
def sampleA33 : Matrix := Matrix.mk 3 3 (fun i j => if i < 3 ∧ j < 3 then 1 else 0)

/-- A 2×2 matrix whose logical entries are all `1` and whose backing store
holds `7` outside the logical region. -/
def sampleB22 : Matrix := Matrix.mk 2 2 (fun i j => if i < 2 ∧ j < 2 then 1 else 7)

/-- The spec's 2×2 determinant scenario matrix `[[3,8],[4,6]]`. -/
def sampleM22 : Matrix := Matrix.mk 2 2 (fun i j =>
  if i = 0 then (if j = 0 then 3 else 8) else (if j = 0 then 4 else 6))

/-- The spec's 3×3 scenario matrix `A = [[1,2,3],[4,5,6],[7,8,9]]`. -/
def sampleVals33 : Matrix := Matrix.mk 3 3 (fun i j =>
  if i < 3 ∧ j < 3 then (3 * i + j + 1 : ℚ) else 0)

/-- C1: contrary to the claim, `multiply` performs no shape check and cannot
fail.  On a 2×3 times 2×3 pair (inner dimensions 3 ≠ 2) it returns an
ordinary 2×3 matrix; entry (0,0) accumulates `b`'s backing store at row
index 2, outside `b`'s logical region (here the garbage value 7), yielding
`1*1 + 1*1 + 1*7 = 9` instead of a `ShapeMismatch` failure. -/
theorem multiply_no_shape_check :
    (multiply zeroStore sampleA23 sampleB23).rows = 2 ∧
    (multiply zeroStore sampleA23 sampleB23).cols = 3 ∧
    (multiply zeroStore sampleA23 sampleB23).data 0 0 = 9 := by
  refine ⟨rfl, rfl, ?_⟩
  have h1 : List.range ((3 : Int).toNat) = [0, 1, 2] := rfl
  norm_num [multiply, sampleA23, sampleB23, zeroStore, create_matrix, h1]

/-- C2: contrary to the claim, `add` and `subtract` perform no shape check and
cannot fail.  On a 3×3 first operand and a 2×2 second operand they return an
ordinary 3×3 matrix; entry (2,2) reads `b`'s backing store outside its logical
region (here the garbage value 7), yielding `1+7 = 8` for `add` and
`1-7 = -6` for `subtract` instead of a `ShapeMismatch` failure. -/
theorem add_subtract_no_shape_check :
    (add zeroStore sampleA33 sampleB22).rows = 3 ∧
    (add zeroStore sampleA33 sampleB22).cols = 3 ∧
    (add zeroStore sampleA33 sampleB22).data 2 2 = 8 ∧
    (subtract zeroStore sampleA33 sampleB22).rows = 3 ∧
    (subtract zeroStore sampleA33 sampleB22).cols = 3 ∧
    (subtract zeroStore sampleA33 sampleB22).data 2 2 = -6 := by
  refine ⟨rfl, rfl, ?_, rfl, rfl, ?_⟩ <;>
    norm_num [add, subtract, sampleA33, sampleB22, create_matrix]

/-- C3: contrary to the claim, `create_matrix` performs no bounds check and
cannot fail.  `create_matrix(0, 5)` returns an ordinary matrix value with
`rows = 0`, and `create_matrix(MAX+1, 1) = create_matrix(11, 1)` returns an
ordinary matrix value with `rows = 11` (in C its initialization loop even
writes past the end of the `MAX × MAX` backing array), instead of a
`BoundsExceeded` failure in either case. -/
theorem create_matrix_no_bounds_check :
    (create_matrix zeroStore 0 5).rows = 0 ∧
    (create_matrix zeroStore 0 5).cols = 5 ∧
    (create_matrix zeroStore (MAX + 1) 1).rows = 11 ∧
    (create_matrix zeroStore (MAX + 1) 1).cols = 1 :=
  ⟨rfl, rfl, rfl, rfl⟩

/-- C4: `determinant_2x2` returns `m[0,0]*m[1,1] - m[0,1]*m[1,0]` — on the
spec's 2×2 scenario matrix `[[3,8],[4,6]]` it yields `-14` as claimed — but,
contrary to the claim, it performs no shape check: on the 3×3 matrix
`[[1,2,3],[4,5,6],[7,8,9]]` it silently returns `1*5 - 2*4 = -3` instead of a
`ShapeMismatch` failure. -/
theorem determinant_2x2_no_shape_check :
    determinant_2x2 sampleM22 = -14 ∧
    sampleVals33.rows = 3 ∧ sampleVals33.cols = 3 ∧
    determinant_2x2 sampleVals33 = -3 := by
  refine ⟨?_, rfl, rfl, ?_⟩ <;> norm_num [determinant_2x2, sampleM22, sampleVals33]

/-- A matrix whose shape is not square is reported non-symmetric at once. -/
lemma is_symmetric_false_of_ne (m : Matrix) (h : m.rows ≠ m.cols) :
    is_symmetric m = false := by
  rw [is_symmetric, if_pos h]

/-- On square shapes, `is_symmetric` holds exactly when every cell of the
logical region is within `1e-9` of its mirror cell. -/
lemma is_symmetric_true_iff (m : Matrix) (h : m.rows = m.cols) :
    is_symmetric m = true ↔ ∀ i j, i < m.rows.toNat → j < m.cols.toNat →
      |m.data i j - m.data j i| ≤ 1 / 1000000000 := by
  rw [is_symmetric, if_neg (not_not_intro h)]
  simp only [List.all_eq_true, List.mem_range, decide_eq_true_eq]
  constructor
  · intro hall i j hi hj
    exact hall i hi j hj
  · intro hall i hi j hj
    exact hall i j hi hj

/-- The identity matrix passes the symmetry test. -/
lemma identity_is_symmetric (g : Nat → Nat → ℚ) (n : Int) :
    is_symmetric (identity g n) = true := by
  rw [is_symmetric_true_iff (identity g n) rfl]
  intro i j hi hj
  rw [identity_data_in g n i j hi hj, identity_data_in g n j i hj hi]
  by_cases hij : i = j
  · rw [if_pos hij, if_pos hij.symm]
    norm_num
  · rw [if_neg hij, if_neg (fun hc => hij hc.symm)]
    norm_num

/-- C5: `is_symmetric` is `false` for non-square shapes; on square shapes it
is `true` exactly when every logical cell is within `1e-9` of its mirror; and
`identity(n)` is symmetric for every valid `n`. -/
theorem is_symmetric_spec :
    (∀ m : Matrix, m.rows ≠ m.cols → is_symmetric m = false) ∧
    (∀ m : Matrix, m.rows = m.cols →
      (is_symmetric m = true ↔ ∀ i j, i < m.rows.toNat → j < m.cols.toNat →
        |m.data i j - m.data j i| ≤ 1 / 1000000000)) ∧
    (∀ (g : Nat → Nat → ℚ) (n : Int), 1 ≤ n → n ≤ MAX →
      is_symmetric (identity g n) = true) :=
  ⟨fun m h => is_symmetric_false_of_ne m h,
   fun m h => is_symmetric_true_iff m h,
   fun g n _ _ => identity_is_symmetric g n⟩

/-- Witness for C5 at concrete inputs: a 2×3 matrix is non-symmetric and
`identity(3)` is symmetric, with `1 ≤ 3 ≤ MAX`. -/
theorem is_symmetric_spec_witness :
    ((1 : Int) ≤ 3 ∧ (3 : Int) ≤ MAX) ∧
    is_symmetric (Matrix.mk 2 3 (fun i j => (i : ℚ) + j)) = false ∧
    is_symmetric (identity zeroStore 3) = true :=
  ⟨⟨by decide, by decide⟩,
   is_symmetric_spec.1 (Matrix.mk 2 3 (fun i j => (i : ℚ) + j)) (by decide),
   is_symmetric_spec.2.2 zeroStore 3 (by decide) (by decide)⟩

/-- The accumulation loop of `trace` computes the sum of the diagonal cells
below `min rows cols`. -/
lemma trace_eq_sum (m : Matrix) :
    trace m = ∑ i in Finset.range (min m.rows m.cols).toNat, m.data i i := by
  rw [trace]
  have h := foldl_add_range (fun i => m.data i i) 0 (min m.rows m.cols).toNat
  simpa using h

/-- The trace of `identity g n` is `n` whenever `n` is nonnegative. -/
lemma trace_identity (g : Nat → Nat → ℚ) (n : Int) (h1 : 1 ≤ n) :
    trace (identity g n) = (n : ℚ) := by
  rw [trace_eq_sum]
  have hmin : (min (identity g n).rows (identity g n).cols).toNat = n.toNat := by
    show (min n n).toNat = n.toNat
    rw [min_self]
  rw [hmin]
  have hone : ∀ i ∈ Finset.range n.toNat, (identity g n).data i i = 1 := by
    intro i hi
    rw [identity_data_in g n i i (Finset.mem_range.mp hi) (Finset.mem_range.mp hi)]
    simp
  rw [Finset.sum_congr rfl hone]
  simp only [Finset.sum_const, Finset.card_range, nsmul_eq_mul, mul_one]
  have h2 : ((n.toNat : ℤ)) = n := Int.toNat_of_nonneg (le_trans zero_le_one h1)
  exact_mod_cast congrArg (fun z : ℤ => (z : ℚ)) h2

/-- C6: `trace` sums `m[i,i]` for `i` below `min(rows, cols)` — also on
non-square matrices — and `trace (identity n) = n` for every valid `n`. -/
theorem trace_spec :
    (∀ m : Matrix,
      trace m = ∑ i in Finset.range (min m.rows m.cols).toNat, m.data i i) ∧
    (∀ (g : Nat → Nat → ℚ) (n : Int), 1 ≤ n → n ≤ MAX →
      trace (identity g n) = (n : ℚ)) :=
  ⟨trace_eq_sum, fun g n h1 _ => trace_identity g n h1⟩

/-- Witness for C6 at a concrete input: `trace (identity 3) = 3`. -/
theorem trace_spec_witness :
    ((1 : Int) ≤ 3 ∧ (3 : Int) ≤ MAX) ∧ trace (identity zeroStore 3) = 3 := by
  refine ⟨⟨by decide, by decide⟩, ?_⟩
  have h := trace_spec.2 zeroStore 3 (by decide) (by decide)
  exact_mod_cast h

/-- Inside `m`'s logical region, the transposed matrix mirrors `m`. -/
lemma transpose_data_in (g : Nat → Nat → ℚ) (m : Matrix) (i j : Nat)
    (hi : i < m.rows.toNat) (hj : j < m.cols.toNat) :
    (transpose g m).data j i = m.data i j := by
  show (if j < m.cols.toNat ∧ i < m.rows.toNat then m.data i j
      else (create_matrix g m.cols m.rows).data j i) = m.data i j
  exact if_pos (And.intro hj hi)

/-- C7: `transpose` has shape `cols × rows`, mirrors every logical entry, and
is an involution up to logical equality. -/
theorem transpose_spec (g g2 : Nat → Nat → ℚ) (m : Matrix) :
    (transpose g m).rows = m.cols ∧ (transpose g m).cols = m.rows ∧
    (∀ i j, i < m.rows.toNat → j < m.cols.toNat →
      (transpose g m).data j i = m.data i j) ∧
    Matrix.Equiv (transpose g2 (transpose g m)) m := by
  refine ⟨rfl, rfl, fun i j hi hj => transpose_data_in g m i j hi hj,
    rfl, rfl, ?_⟩
  intro i j hi hj
  have hi' : i < m.rows.toNat := hi
  have hj' : j < m.cols.toNat := hj
  calc (transpose g2 (transpose g m)).data i j
      = (transpose g m).data j i :=
        transpose_data_in g2 (transpose g m) j i hj' hi'
    _ = m.data i j := transpose_data_in g m i j hi' hj'

/-- Witness for C7 at a concrete input: double transposition of a 2×3 matrix
gives back the matrix. -/
theorem transpose_spec_witness :
    Matrix.Equiv (transpose zeroStore (transpose zeroStore sampleA23))
      sampleA23 :=
  (transpose_spec zeroStore zeroStore sampleA23).2.2.2

/-- Inside `a`'s logical region, `add` is elementwise addition. -/
lemma add_data_in (g : Nat → Nat → ℚ) (a b : Matrix) (i j : Nat)
    (hi : i < a.rows.toNat) (hj : j < a.cols.toNat) :
    (add g a b).data i j = a.data i j + b.data i j := by
  show (if i < a.rows.toNat ∧ j < a.cols.toNat then a.data i j + b.data i j
      else (create_matrix g a.rows a.cols).data i j) = a.data i j + b.data i j
  exact if_pos (And.intro hi hj)

/-- Inside `m`'s logical region, `scalar_multiply` scales every entry. -/
lemma scalar_multiply_data_in (g : Nat → Nat → ℚ) (m : Matrix) (scalar : ℚ)
    (i j : Nat) (hi : i < m.rows.toNat) (hj : j < m.cols.toNat) :
    (scalar_multiply g m scalar).data i j = m.data i j * scalar := by
  show (if i < m.rows.toNat ∧ j < m.cols.toNat then m.data i j * scalar
      else (create_matrix g m.rows m.cols).data i j) = m.data i j * scalar
  exact if_pos (And.intro hi hj)

/-- C8: multiplying a square matrix of size `n` by `identity n` on either
side gives back the matrix, entry for entry on the logical region. -/
theorem multiply_identity_spec (g g2 : Nat → Nat → ℚ) (m : Matrix) (n : Int)
    (hr : m.rows = n) (hc : m.cols = n) (_h1 : 1 ≤ n) (_h2 : n ≤ MAX) :
    Matrix.Equiv (multiply g m (identity g2 n)) m ∧
    Matrix.Equiv (multiply g (identity g2 n) m) m := by
  constructor
  · refine ⟨rfl, hc.symm, ?_⟩
    intro i j hi hj
    have hi' : i < m.rows.toNat := hi
    have hj' : j < n.toNat := hj
    rw [multiply_data_in g m (identity g2 n) i j hi' hj', hc]
    have hterm : ∀ k ∈ Finset.range n.toNat,
        m.data i k * (identity g2 n).data k j =
          if k = j then m.data i k else 0 := by
      intro k hk
      rw [identity_data_in g2 n k j (Finset.mem_range.mp hk) hj']
      by_cases hkj : k = j
      · rw [if_pos hkj, mul_one, if_pos hkj]
      · rw [if_neg hkj, mul_zero, if_neg hkj]
    rw [Finset.sum_congr rfl hterm,
      Finset.sum_ite_eq' (Finset.range n.toNat) j (fun k => m.data i k),
      if_pos (Finset.mem_range.mpr hj')]
  · refine ⟨hr.symm, rfl, ?_⟩
    intro i j hi hj
    have hi' : i < n.toNat := hi
    have hj' : j < m.cols.toNat := hj
    rw [multiply_data_in g (identity g2 n) m i j hi' hj']
    have hIc : (identity g2 n).cols = n := rfl
    rw [hIc]
    have hterm : ∀ k ∈ Finset.range n.toNat,
        (identity g2 n).data i k * m.data k j =
          if k = i then m.data k j else 0 := by
      intro k hk
      rw [identity_data_in g2 n i k hi' (Finset.mem_range.mp hk)]
      by_cases hki : k = i
      · rw [if_pos hki.symm, one_mul, if_pos hki]
      · rw [if_neg (fun hc2 => hki hc2.symm), zero_mul, if_neg hki]
    rw [Finset.sum_congr rfl hterm,
      Finset.sum_ite_eq' (Finset.range n.toNat) i (fun k => m.data k j),
      if_pos (Finset.mem_range.mpr hi')]

/-- Witness for C8 at a concrete input: a 2×2 matrix times `identity 2`, on
either side, gives back the matrix. -/
theorem multiply_identity_spec_witness :
    ((1 : Int) ≤ 2 ∧ (2 : Int) ≤ MAX) ∧
    Matrix.Equiv (multiply zeroStore sampleM22 (identity zeroStore 2))
      sampleM22 ∧
    Matrix.Equiv (multiply zeroStore (identity zeroStore 2) sampleM22)
      sampleM22 := by
  have h := multiply_identity_spec zeroStore zeroStore sampleM22 2 rfl rfl
    (by decide) (by decide)
  exact ⟨⟨by decide, by decide⟩, h.1, h.2⟩

/-- C9: `scalar_multiply` keeps the shape and scales every logical entry, and
scaling by `k1 + k2` agrees with adding the two separate scalings. -/
theorem scalar_multiply_linearity (g : Nat → Nat → ℚ) (m : Matrix)
    (k k1 k2 : ℚ) :
    (scalar_multiply g m k).rows = m.rows ∧
    (scalar_multiply g m k).cols = m.cols ∧
    (∀ i j, i < m.rows.toNat → j < m.cols.toNat →
      (scalar_multiply g m k).data i j = m.data i j * k) ∧
    Matrix.Equiv (scalar_multiply g m (k1 + k2))
      (add g (scalar_multiply g m k1) (scalar_multiply g m k2)) := by
  refine ⟨rfl, rfl,
    fun i j hi hj => scalar_multiply_data_in g m k i j hi hj, rfl, rfl, ?_⟩
  intro i j hi hj
  have hi' : i < m.rows.toNat := hi
  have hj' : j < m.cols.toNat := hj
  rw [scalar_multiply_data_in g m (k1 + k2) i j hi' hj',
    add_data_in g (scalar_multiply g m k1) (scalar_multiply g m k2) i j hi' hj',
    scalar_multiply_data_in g m k1 i j hi' hj',
    scalar_multiply_data_in g m k2 i j hi' hj']
  ring

/-- Witness for C9 at a concrete input: scaling the 2×2 scenario matrix by
`2 + 3` equals the sum of its scalings by `2` and by `3`. -/
theorem scalar_multiply_linearity_witness :
    Matrix.Equiv (scalar_multiply zeroStore sampleM22 (2 + 3))
      (add zeroStore (scalar_multiply zeroStore sampleM22 2)
        (scalar_multiply zeroStore sampleM22 3)) :=
  (scalar_multiply_linearity zeroStore sampleM22 0 2 3).2.2.2

/-- C10: the result shape of `add` and of `subtract` is always the first
operand's shape — both build their result with `create_matrix(a->rows,
a->cols)` — so `b`'s declared shape never influences it, also when the two
shapes differ. -/
theorem add_subtract_shape_from_first (g : Nat → Nat → ℚ) (a b : Matrix) :
    (add g a b).rows = a.rows ∧ (add g a b).cols = a.cols ∧
    (subtract g a b).rows = a.rows ∧ (subtract g a b).cols = a.cols :=
  ⟨rfl, rfl, rfl, rfl⟩

end MatrixOps
